import Mathlib

/-!
Shallow embedding of the HTTP transport core of the Illumio API Go client
(file http.go of the repository): the functions apicall, polling and
pceSanitization, together with the fragments of the Go standard library
they rely on (strings.ToUpper, strings.Replace, strconv.Atoi, strconv.Itoa,
http.Header.Get, net/url.Parse).

Modelling conventions:
* Go strings are modelled as Lean String values; the inputs exercised by the
  claims are ASCII, where Go's byte-wise and Lean's character-wise operations
  agree.
* The network is a scripted oracle: client.Do consumes the next response from
  a list, and returns a non-nil error exactly when the list is exhausted.
  Every attempted request is recorded in an event trace together with the TLS
  verification mode of the client that issued it; time.Sleep is recorded as a
  sleep event carrying the number of seconds slept.
* json.Unmarshal into the unexported asyncResults struct is a parameter of
  the model (a Decoder); a Decoder returning none models an Unmarshal error,
  which the Go code ignores, leaving the struct at its zero value.
* Reads from the in-memory response bodies of the oracle cannot fail, so the
  ioutil.ReadAll error paths are unreachable in the model.
* The nil-pointer dereference that the Go code performs on the unchecked
  result of url.Parse is modelled by the CallOutcome.panics constructor.
-/

namespace IllumioAPI

/-- Model of Go strings.ToUpper on a single character, restricted to ASCII
(the Go function also maps non-ASCII letters, which no claim exercises). -/
def goToUpperChar (c : Char) : Char :=
  if 'a' ≤ c ∧ c ≤ 'z' then Char.ofNat (c.toNat - 32) else c

/-- Model of Go strings.ToUpper (ASCII fragment). -/
def goToUpper (s : String) : String :=
  String.mk (s.data.map goToUpperChar)

/-- ASCII decimal digit test, as used by strconv.Atoi. -/
def isDigitChar (c : Char) : Bool :=
  '0' ≤ c && c ≤ '9'

/-- Decimal value of a digit string (most significant first). -/
def digitsVal (ds : List Char) : Nat :=
  ds.foldl (fun a c => a * 10 + (c.toNat - 48)) 0

/-- Model of Go strconv.Atoi: optional sign followed by at least one decimal
digit; none models a non-nil error (empty string, stray characters). The
64-bit range error of the Go function is not modelled; the claims only
exercise small values. -/
def goAtoi (s : String) : Option Int :=
  match s.data with
  | [] => none
  | c :: cs =>
    let signed : Bool × List Char :=
      if c = '-' then (true, cs) else if c = '+' then (false, cs) else (false, c :: cs)
    match signed with
    | (neg, ds) =>
      if ds.isEmpty then none
      else if ds.all isDigitChar then
        some (if neg then -(digitsVal ds : Int) else (digitsVal ds : Int))
      else none

/-- Model of http.Header.Get: first value stored under the key, empty string
when the key is absent. The Go function canonicalises the MIME key first;
the model uses the canonical spelling directly, which is how the source
writes every key it reads (Location, Retry-After). -/
def headerGet (hs : List (String × String)) (k : String) : String :=
  match hs.find? (fun p => p.1 == k) with
  | some p => p.2
  | none => ""

/-- An ASCII control byte, as rejected by net/url.Parse. -/
def isCtl (c : Char) : Bool :=
  c.toNat < 32 || c.toNat == 127

/-- Result of scanning for a URL scheme, following Go net/url getScheme:
err models the missing-protocol-scheme error, noScheme means the whole
string is parsed as a path, rest r means a scheme was split off and r is
what follows the colon. -/
inductive SchemeRes where
  | err : SchemeRes
  | noScheme : SchemeRes
  | rest : List Char → SchemeRes
  deriving DecidableEq

/-- Scan for the scheme separator, following Go net/url getScheme: letters
continue the scheme; digits and plus, minus, dot continue it except in first
position; a colon in first position is an error; any other character means
there is no scheme. The first argument is the current index. -/
def findScheme : Nat → List Char → SchemeRes
  | _, [] => SchemeRes.noScheme
  | i, c :: cs =>
    if ('a' ≤ c ∧ c ≤ 'z') ∨ ('A' ≤ c ∧ c ≤ 'Z') then findScheme (i + 1) cs
    else if ('0' ≤ c ∧ c ≤ '9') ∨ c = '+' ∨ c = '-' ∨ c = '.' then
      (if i = 0 then SchemeRes.noScheme else findScheme (i + 1) cs)
    else if c = ':' then (if i = 0 then SchemeRes.err else SchemeRes.rest cs)
    else SchemeRes.noScheme

/-- The only field of a parsed URL that the source reads. -/
structure URL where
  Host : String
  deriving DecidableEq

/-- Extract the authority host from what follows the scheme: present exactly
when it starts with two slashes, and extends to the next slash, question mark
or hash. Userinfo and host validation of the Go parser are not modelled (no
claim exercises them). -/
def authorityHost (r : List Char) : URL :=
  match r with
  | '/' :: '/' :: rest =>
    ⟨String.mk (rest.takeWhile (fun c => !(c = '/' || c = '?' || c = '#')))⟩
  | _ => ⟨""⟩

/-- Model of a fragment of Go net/url.Parse: none models a non-nil error
(control characters anywhere, or a colon before any scheme name), some gives
the Host field of the parsed URL. -/
def urlParse (s : String) : Option URL :=
  if s.data.any isCtl then none
  else
    match findScheme 0 s.data with
    | SchemeRes.err => none
    | SchemeRes.noScheme => some (authorityHost s.data)
    | SchemeRes.rest r => some (authorityHost r)

/-- Model of the PCE struct of http.go (Illumio endpoint and credentials). -/
structure PCE where
  FQDN : String
  Port : Int
  Org : Int
  User : String
  Key : String
  DisableTLSChecking : Bool
  deriving DecidableEq

/-- A response of the scripted network oracle: the fields of an http.Response
that the source reads (status code, headers, body). -/
structure HTTPResponse where
  statusCode : Nat
  headers : List (String × String)
  body : String
  deriving DecidableEq

/-- Model of the APIResponse struct of http.go. The Request pointer held for
diagnostics is not modelled: no claim and no code path reads it back. -/
structure APIResponse where
  RespBody : String
  StatusCode : Nat
  Header : List (String × String)
  deriving DecidableEq

/-- Model of the unexported asyncResults struct of http.go, with the two
nested single-field structs flattened (ResultHref is Result.Href and
RequestedByHref is RequestedBy.Href). -/
structure AsyncResults where
  Href : String
  JobType : String
  Description : String
  ResultHref : String
  Status : String
  RequestedAt : String
  TerminatedAt : String
  RequestedByHref : String
  deriving DecidableEq

/-- The Go zero value of the asyncResults struct. -/
def zeroAsync : AsyncResults :=
  ⟨"", "", "", "", "", "", "", ""⟩

/-- Model of json.Unmarshal into asyncResults: none models a non-nil
Unmarshal error (which the source ignores, keeping the zero value). -/
abbrev Decoder := String → Option AsyncResults

/-- Observable actions of a call: an attempted HTTP request (with the TLS
mode of the client that issued it: insecureTLS true means certificate
verification is skipped) and a sleep of the given number of seconds. -/
inductive Event where
  | request : String → String → Bool → Event
  | sleep : Int → Event
  deriving DecidableEq

/-- Outcome of apicall: either the Go program panics (nil-pointer
dereference), or it returns an APIResponse and an optional error string. -/
inductive CallOutcome where
  | panics : CallOutcome
  | returns : APIResponse → Option String → CallOutcome
  deriving DecidableEq

/-- The Go zero value of APIResponse (returned on every early error path). -/
def zeroResponse : APIResponse :=
  ⟨"", 0, []⟩

/-- Error string of the method validation in apicall (verbatim from the
source). -/
def invalidMethodMsg : String :=
  "invalid http action string. action must be GET, POST, PUT, or DELETE"

/-- Stand-in for the message of a non-nil error returned by client.Do. -/
def netErrMsg : String :=
  "network error"

/-- Stand-in for the message of a non-nil error returned by http.NewRequest
when its URL does not parse. -/
def parseErrMsg : String :=
  "net/url parse error"

/-- Stand-in for the message of a non-nil error returned by strconv.Atoi,
as propagated by polling for a missing or non-numeric Retry-After header. -/
def atoiErrMsg : String :=
  "strconv.Atoi: invalid syntax"

/-- The test of apicall line 63 on the already upper-cased action: the Go
code returns the invalid-action error exactly when this is false. -/
def validMethodUpper (action : String) : Bool :=
  !(action != "GET" && action != "POST" && action != "PUT" && action != "DELETE")

/-- The method validation of apicall lines 62 to 65: upper-case the action,
then test it. True exactly when the call passes validation. -/
def validMethod (m : String) : Bool :=
  validMethodUpper (goToUpper m)

/-- Lines 124 to 141 of http.go: populate the APIResponse from the final
http.Response, then fail with an http-status-code error exactly when the
first character of strconv.Itoa of the status code is not the digit 2. -/
def processResp (r : HTTPResponse) : CallOutcome :=
  let response : APIResponse := ⟨r.body, r.statusCode, r.headers⟩
  if (Nat.toDigits 10 r.statusCode).take 1 ≠ ['2'] then
    CallOutcome.returns response
      (some ("http status code of " ++ String.mk (Nat.toDigits 10 r.statusCode)))
  else
    CallOutcome.returns response none

/-- Model of the polling function of http.go (lines 144 to 186) acting on
the scripted oracle. In order: build the poll request from baseURL plus the
Location header of origResp (a NewRequest URL-parse failure aborts), parse
the Retry-After header of origResp with strconv.Atoi (failure aborts before
any network activity), sleep, issue the GET on a client that always skips
TLS verification, and decode the body, ignoring any decode error. Returns
the decoded job record, the rest of the script, and the events of this
cycle. -/
def pollingM (d : Decoder) (baseURL : String) (pce : PCE) (origResp : HTTPResponse)
    (script : List HTTPResponse) :
    Except String AsyncResults × List HTTPResponse × List Event :=
  let pollURL := baseURL ++ headerGet origResp.headers "Location"
  match urlParse pollURL with
  | none => (Except.error parseErrMsg, script, [])
  | some _ =>
    match goAtoi (headerGet origResp.headers "Retry-After") with
    | none => (Except.error atoiErrMsg, script, [])
    | some wait =>
      match script with
      | [] =>
        (Except.error netErrMsg, [],
         [Event.sleep wait, Event.request "GET" pollURL true])
      | r :: rest =>
        match d r.body with
        | some a =>
          (Except.ok a, rest, [Event.sleep wait, Event.request "GET" pollURL true])
        | none =>
          (Except.ok zeroAsync, rest,
           [Event.sleep wait, Event.request "GET" pollURL true])

/-- The async loop of apicall lines 100 to 105: poll until the decoded
status is done, threading the script and collecting events. The recursion
is structural on the script because a successful polling cycle consumes
exactly its head (theorem pollingM_ok_script below). -/
def pollLoop (d : Decoder) (baseURL : String) (pce : PCE) (origResp : HTTPResponse) :
    List HTTPResponse → Except String AsyncResults × List HTTPResponse × List Event
  | [] => pollingM d baseURL pce origResp []
  | r :: rest =>
    match pollingM d baseURL pce origResp (r :: rest) with
    | (Except.error e, s, ev) => (Except.error e, s, ev)
    | (Except.ok a, _, ev) =>
      if a.Status = "done" then (Except.ok a, rest, ev)
      else
        match pollLoop d baseURL pce origResp rest with
        | (res, s2, ev2) => (res, s2, ev ++ ev2)

/-- Model of apicall of http.go (lines 55 to 142) on the scripted oracle.
In order: upper-case and validate the method (failure returns the zero
response with no network activity); parse the URL, panicking on the nil
dereference of line 69 when url.Parse fails; issue the initial request on a
client that skips TLS verification exactly when pce.DisableTLSChecking is
set; when async, run the polling loop against the initial response and then
fetch the job result with the same client; finally populate the response
and check the leading status digit. -/
def apicall (d : Decoder) (httpAction apiURL : String) (pce : PCE) (body : String)
    (async : Bool) (script : List HTTPResponse) : CallOutcome × List Event :=
  let action := goToUpper httpAction
  if !validMethodUpper action then
    (CallOutcome.returns zeroResponse (some invalidMethodMsg), [])
  else
    match urlParse apiURL with
    | none => (CallOutcome.panics, [])
    | some u =>
      let baseURL := "https://" ++ u.Host ++ "/api/v1"
      let initEv := Event.request action apiURL pce.DisableTLSChecking
      match script with
      | [] => (CallOutcome.returns zeroResponse (some netErrMsg), [initEv])
      | r :: rest =>
        if async then
          match pollLoop d baseURL pce r rest with
          | (Except.error e, _, pev) =>
            (CallOutcome.returns zeroResponse (some e), initEv :: pev)
          | (Except.ok a, rest2, pev) =>
            let finalURL := baseURL ++ a.ResultHref
            match urlParse finalURL with
            | none =>
              (CallOutcome.returns zeroResponse (some parseErrMsg), initEv :: pev)
            | some _ =>
              let fev := Event.request "GET" finalURL pce.DisableTLSChecking
              match rest2 with
              | [] =>
                (CallOutcome.returns zeroResponse (some netErrMsg),
                 initEv :: (pev ++ [fev]))
              | fr :: _ => (processResp fr, initEv :: (pev ++ [fev]))
        else (processResp r, [initEv])

/-- Model of Go strings.HasSuffix of the single character slash, as used by
pceSanitization line 192. -/
def endsWithSlash (l : List Char) : Bool :=
  l.getLast? == some '/'

/-- Model of Go strings.HasPrefix for the fixed pattern of eight characters
h t t p s colon slash slash, as used by pceSanitization line 197. -/
def httpsAt : List Char → Bool
  | 'h' :: 't' :: 't' :: 'p' :: 's' :: ':' :: '/' :: '/' :: _ => true
  | _ => false

/-- Model of Go strings.Replace with old the https scheme pattern, new the
empty string and n negative: delete every non-overlapping occurrence of the
pattern, scanning left to right. On a match the scan resumes after the
matched characters; otherwise it advances one character. -/
def removeHttpsAll : List Char → List Char
  | 'h' :: 't' :: 't' :: 'p' :: 's' :: ':' :: '/' :: '/' :: rest => removeHttpsAll rest
  | c :: cs => c :: removeHttpsAll cs
  | [] => []

/-- Model of pceSanitization of http.go (lines 189 to 203) on character
lists: drop the last character when it is a slash, then, when the result
starts with the https scheme pattern, run the Replace call. -/
def pceSanitizationL (l : List Char) : List Char :=
  let l1 := if endsWithSlash l then l.dropLast else l
  if httpsAt l1 then removeHttpsAll l1 else l1

/-- Model of pceSanitization of http.go on String values. -/
def pceSanitization (s : String) : String :=
  String.mk (pceSanitizationL s.data)

/-- Index of the leftmost occurrence of the https scheme pattern, used only
by the specification-side description of the Replace call. -/
def findHttps : List Char → Option Nat
  | [] => none
  | c :: cs =>
    if httpsAt (c :: cs) then some 0 else (findHttps cs).map (· + 1)

/-- Specification-side description of deleting every occurrence of the
https scheme pattern: repeatedly splice out the leftmost occurrence. This
is a different algorithm from removeHttpsAll (splice at the found index
rather than a single left-to-right scan); the two are proved equal in
removeHttpsAll_eq_removeOccSpec. -/
def removeOccSpec (l : List Char) : List Char :=
  match h : findHttps l with
  | none => l
  | some i => l.take i ++ removeOccSpec (l.drop (i + 8))
  termination_by l.length
  decreasing_by
    have hpos : 0 < l.length := by
      cases l with
      | nil => simp [findHttps] at h
      | cons a as => simp
    simp [List.length_drop]
    omega

/-- Specification-side restatement of sanitisation per the amended claim:
trim exactly one trailing slash when present; then, when the remaining
string starts with the https scheme pattern, delete every occurrence of the
pattern by repeatedly splicing out the leftmost one. -/
def specSanitize (s : String) : String :=
  let l1 := if endsWithSlash s.data then s.data.dropLast else s.data
  if httpsAt l1 then String.mk (removeOccSpec l1) else String.mk l1

/-- A decoder used by the concrete runs of several claims: one body that
decodes to a pending job, one that decodes to a done job whose result href
is /results/123, everything else failing to decode. -/
def sampleDecode : Decoder := fun s =>
  if s = "pending-body" then some { zeroAsync with Status := "pending" }
  else if s = "done-body" then
    some { zeroAsync with Status := "done", ResultHref := "/results/123" }
  else none

/-- A concrete endpoint with strict TLS checking. -/
def samplePCE : PCE :=
  ⟨"pce.example.com", 8443, 1, "user", "key", false⟩

/-- The scripted network of the end-to-end async run of claim C2: the
submission acknowledgment naming the job and a zero retry delay, a pending
poll, a done poll, and the result fetch. -/
def sampleScript : List HTTPResponse :=
  [⟨202, [("Location", "/jobs/123"), ("Retry-After", "0")], ""⟩,
   ⟨200, [], "pending-body"⟩,
   ⟨200, [], "done-body"⟩,
   ⟨200, [], "ok"⟩]

/-- The scripted network of the counterexample to claim C1: the submission
acknowledgment names a one-second retry delay, and the first poll response
carries no Retry-After header at all. -/
def noRetryScript : List HTTPResponse :=
  [⟨202, [("Location", "/jobs/123"), ("Retry-After", "1")], ""⟩,
   ⟨200, [], "pending-body"⟩,
   ⟨200, [], "done-body"⟩,
   ⟨200, [], "ok"⟩]

/-- A match of the https scheme pattern exposes the eight pattern characters
at the head of the list. -/
theorem httpsAt_true {l : List Char} (h : httpsAt l = true) :
    ∃ rest, l = 'h' :: 't' :: 't' :: 'p' :: 's' :: ':' :: '/' :: '/' :: rest := by
  unfold httpsAt at h
  split at h
  · rename_i rest
    exact ⟨rest, rfl⟩
  · simp at h

/-- The https scheme pattern does not match when its characters are not at
the head of the list. -/
theorem httpsAt_false_cons {c : Char} {cs : List Char}
    (hne : ∀ rest : List Char,
      c = 'h' → cs = 't' :: 't' :: 'p' :: 's' :: ':' :: '/' :: '/' :: rest → False) :
    httpsAt (c :: cs) = false := by
  cases h : httpsAt (c :: cs) with
  | false => rfl
  | true =>
    obtain ⟨rest, hrest⟩ := httpsAt_true h
    injection hrest with h1 h2
    exact (hne rest h1 h2).elim

/-- Unfolding of removeOccSpec when the pattern does not occur. -/
theorem removeOccSpec_none {l : List Char} (h : findHttps l = none) :
    removeOccSpec l = l := by
  conv_lhs => rw [removeOccSpec.eq_def]
  split
  · rfl
  · rename_i i hi
    rw [h] at hi
    cases hi

/-- Unfolding of removeOccSpec at the leftmost occurrence. -/
theorem removeOccSpec_some {l : List Char} {i : Nat} (h : findHttps l = some i) :
    removeOccSpec l = l.take i ++ removeOccSpec (l.drop (i + 8)) := by
  conv_lhs => rw [removeOccSpec.eq_def]
  split
  · rename_i hn
    rw [h] at hn
    cases hn
  · rename_i j hj
    rw [h] at hj
    injection hj with hji
    subst hji
    rfl

/-- Unfolding of the left-to-right scan on a non-matching head. -/
theorem removeHttpsAll_cons {c : Char} {cs : List Char}
    (hne : ∀ rest : List Char,
      c = 'h' → cs = 't' :: 't' :: 'p' :: 's' :: ':' :: '/' :: '/' :: rest → False) :
    removeHttpsAll (c :: cs) = c :: removeHttpsAll cs := by
  rw [removeHttpsAll.eq_def]
  split
  · rename_i rest heq
    injection heq with h1 h2
    exact (hne rest h1 h2).elim
  · rename_i c2 cs2 hh heq
    injection heq with h1 h2
    subst h1
    subst h2
    rfl
  · rename_i heq
    cases heq

/-- The left-to-right scan of the Go Replace call deletes exactly the
occurrences found by repeatedly splicing out the leftmost match: the
implementation-side and specification-side descriptions of deleting every
https scheme pattern occurrence agree on every input. -/
theorem removeHttpsAll_eq_removeOccSpec (l : List Char) :
    removeHttpsAll l = removeOccSpec l := by
  induction l using removeHttpsAll.induct with
  | case1 rest ih =>
    have hfind :
        findHttps ('h' :: 't' :: 't' :: 'p' :: 's' :: ':' :: '/' :: '/' :: rest) = some 0 := by
      simp [findHttps, httpsAt]
    rw [removeHttpsAll, removeOccSpec_some hfind]
    simp [ih]
  | case2 c cs hne ih =>
    have hat : httpsAt (c :: cs) = false := httpsAt_false_cons hne
    rw [removeHttpsAll_cons hne, ih]
    cases hfind : findHttps cs with
    | none =>
      have h1 : findHttps (c :: cs) = none := by
        simp [findHttps, hat, hfind]
      rw [removeOccSpec_none hfind, removeOccSpec_none h1]
    | some i =>
      have h1 : findHttps (c :: cs) = some (i + 1) := by
        simp [findHttps, hat, hfind]
      rw [removeOccSpec_some hfind, removeOccSpec_some h1]
      simp
  | case3 =>
    rw [removeOccSpec_none (by simp [findHttps])]
    rfl

/-- Sanitisation is the identity on a list with no trailing slash and no
https pattern at its head. -/
theorem pceSanitizationL_id {l : List Char} (h1 : endsWithSlash l = false)
    (h2 : httpsAt l = false) : pceSanitizationL l = l := by
  simp [pceSanitizationL, h1, h2]

/-- Claim C8, counterexample: on the input https slash slash a slash https
slash slash b, pceSanitization deletes the interior occurrence of the
scheme pattern as well, returning a slash b instead of leaving the interior
untouched as the claim states. -/
theorem claim8_cex :
    pceSanitization "https://a/https://b" = "a/b" ∧
    pceSanitization "https://a/https://b" ≠ "a/https://b" := by
  decide

/-- Claim C8, amended: pceSanitization trims exactly one trailing slash
when present and then, when the remaining string starts with the https
scheme prefix, deletes every non-overlapping occurrence of the scheme
pattern (leftmost first) from the whole string, not only the leading one;
it makes no other change. Stated as agreement with the specification-side
description specSanitize on every input. -/
theorem claim8_amended (s : String) : pceSanitization s = specSanitize s := by
  simp only [pceSanitization, specSanitize, pceSanitizationL]
  cases h1 : endsWithSlash s.data with
  | false =>
    simp only [h1, Bool.false_eq_true, if_false]
    cases h2 : httpsAt s.data with
    | false => simp [h2]
    | true => simp [h2, removeHttpsAll_eq_removeOccSpec]
  | true =>
    simp only [h1, if_true]
    cases h2 : httpsAt s.data.dropLast with
    | false => simp [h2]
    | true => simp [h2, removeHttpsAll_eq_removeOccSpec]

/-- Claim C9, counterexample: two trailing slashes refute idempotence, since
each application removes one of them. -/
theorem claim9_cex :
    pceSanitization (pceSanitization "//") ≠ pceSanitization "//" := by
  decide

/-- Claim C9, amended: pceSanitization is not idempotent on every string; it
is idempotent on every input whose sanitised form neither ends with a slash
nor starts with the https scheme pattern, and in particular the two
equalities given by the claim hold. -/
theorem claim9_amended :
    (∀ s : String,
        endsWithSlash (pceSanitization s).data = false →
        httpsAt (pceSanitization s).data = false →
        pceSanitization (pceSanitization s) = pceSanitization s)
    ∧ pceSanitization "https://host.example.com/" = "host.example.com"
    ∧ pceSanitization "host.example.com" = "host.example.com" := by
  refine ⟨?_, by decide, by decide⟩
  intro s h1 h2
  show String.mk (pceSanitizationL (pceSanitization s).data) = pceSanitization s
  rw [pceSanitizationL_id h1 h2]

/-- Witness for claim C9: the idempotence part applied at a concrete
input. -/
theorem claim9_witness :
    pceSanitization (pceSanitization "host.example.com") =
      pceSanitization "host.example.com" :=
  claim9_amended.1 "host.example.com" (by decide) (by decide)

/-- A successful polling cycle consumes exactly the head of the script;
this is the fact that lets pollLoop recurse structurally on the script
while the Go loop reuses what polling hands back. -/
theorem pollingM_ok_script {d : Decoder} {b : String} {pce : PCE} {o : HTTPResponse}
    {s s2 : List HTTPResponse} {a : AsyncResults} {ev : List Event}
    (h : pollingM d b pce o s = (Except.ok a, s2, ev)) : s2 = s.tail := by
  cases hu : urlParse (b ++ headerGet o.headers "Location") with
  | none => simp [pollingM, hu] at h
  | some u2 =>
    cases hw : goAtoi (headerGet o.headers "Retry-After") with
    | none => simp [pollingM, hu, hw] at h
    | some w =>
      cases s with
      | nil => simp [pollingM, hu, hw] at h
      | cons r rest =>
        cases hd : d r.body with
        | some a2 =>
          simp only [pollingM, hu, hw, hd] at h
          simp_all
        | none =>
          simp only [pollingM, hu, hw, hd] at h
          simp_all

/-- When the poll URL parses and the Retry-After header of the driving
response is numeric, a polling cycle emits exactly one sleep of that many
seconds followed by one GET of the job-status resource, in that order,
whatever the script holds. -/
theorem pollingM_events {d : Decoder} {b : String} {pce : PCE} {o : HTTPResponse}
    (script : List HTTPResponse) {w : Int} {u2 : URL}
    (hu : urlParse (b ++ headerGet o.headers "Location") = some u2)
    (hw : goAtoi (headerGet o.headers "Retry-After") = some w) :
    (pollingM d b pce o script).2.2 =
      [Event.sleep w, Event.request "GET" (b ++ headerGet o.headers "Location") true] := by
  cases script with
  | nil => simp [pollingM, hu, hw]
  | cons r rest => cases hd : d r.body <;> simp [pollingM, hu, hw, hd]

/-- When the Retry-After header of the driving response is absent or not
numeric, a polling cycle fails at the strconv.Atoi call with no sleep and
no network activity, leaving the script untouched. -/
theorem pollingM_no_retry {d : Decoder} {b : String} {pce : PCE} {o : HTTPResponse}
    (script : List HTTPResponse) {u2 : URL}
    (hu : urlParse (b ++ headerGet o.headers "Location") = some u2)
    (hw : goAtoi (headerGet o.headers "Retry-After") = none) :
    pollingM d b pce o script = (Except.error atoiErrMsg, script, []) := by
  simp [pollingM, hu, hw]

/-- Every event of a polling cycle is either a sleep of the seconds named
by the Retry-After header of the driving response, or a GET of the
job-status resource on a client that skips TLS verification. -/
theorem pollingM_event_mem {d : Decoder} {b : String} {pce : PCE} {o : HTTPResponse}
    {script : List HTTPResponse} {e : Event}
    (he : e ∈ (pollingM d b pce o script).2.2) :
    (∃ w, goAtoi (headerGet o.headers "Retry-After") = some w ∧ e = Event.sleep w) ∨
    e = Event.request "GET" (b ++ headerGet o.headers "Location") true := by
  cases hu : urlParse (b ++ headerGet o.headers "Location") with
  | none => simp [pollingM, hu] at he
  | some u2 =>
    cases hw : goAtoi (headerGet o.headers "Retry-After") with
    | none => simp [pollingM, hu, hw] at he
    | some w =>
      cases script with
      | nil =>
        simp only [pollingM, hu, hw, List.mem_cons, List.mem_singleton] at he
        rcases he with he | he | he
        · exact Or.inl ⟨w, rfl, he⟩
        · exact Or.inr he
        · simp at he
      | cons r rest =>
        cases hd : d r.body with
        | some a2 =>
          simp only [pollingM, hu, hw, hd, List.mem_cons, List.mem_singleton] at he
          rcases he with he | he | he
          · exact Or.inl ⟨w, rfl, he⟩
          · exact Or.inr he
          · simp at he
        | none =>
          simp only [pollingM, hu, hw, hd, List.mem_cons, List.mem_singleton] at he
          rcases he with he | he | he
          · exact Or.inl ⟨w, rfl, he⟩
          · exact Or.inr he
          · simp at he

/-- Every event of the whole polling loop is either a sleep of the seconds
named by the Retry-After header of the driving response, or a GET of the
job-status resource on a client that skips TLS verification. Both facts
hold for every cycle because the loop passes the same driving response to
every cycle. -/
theorem pollLoop_event_mem {d : Decoder} {b : String} {pce : PCE} {o : HTTPResponse} :
    ∀ (script : List HTTPResponse) {e : Event},
      e ∈ (pollLoop d b pce o script).2.2 →
      (∃ w, goAtoi (headerGet o.headers "Retry-After") = some w ∧ e = Event.sleep w) ∨
      e = Event.request "GET" (b ++ headerGet o.headers "Location") true := by
  intro script
  induction script with
  | nil =>
    intro e he
    exact pollingM_event_mem he
  | cons r rest ih =>
    intro e he
    unfold pollLoop at he
    split at he
    · rename_i e2 s2 ev2 heq
      have h2 : e ∈ (pollingM d b pce o (r :: rest)).2.2 := by
        rw [heq]
        exact he
      exact pollingM_event_mem h2
    · rename_i a ev heq
      split at he
      · have h2 : e ∈ (pollingM d b pce o (r :: rest)).2.2 := by
          rw [heq]
          exact he
        exact pollingM_event_mem h2
      · rcases hp : pollLoop d b pce o rest with ⟨res, s2, ev2⟩
        rw [hp] at he
        simp only [List.mem_append] at he
        rcases he with he | he
        · have h2 : e ∈ (pollingM d b pce o (r :: rest)).2.2 := by
            rw [heq]
            exact he
          exact pollingM_event_mem h2
        · have h2 : e ∈ (pollLoop d b pce o rest).2.2 := by
            rw [hp]
            exact he
          exact ih h2

/-- Claim C3: after the final response is obtained, the call returns the
response body, status code and headers verbatim, together with an error
describing the numeric status code exactly when the first decimal digit of
the code is not 2, and no error otherwise; and a synchronous call with a
valid method and parseable URL routes its first scripted response through
exactly this processing. -/
theorem claim3_status_check :
    (∀ r : HTTPResponse,
        processResp r =
          CallOutcome.returns ⟨r.body, r.statusCode, r.headers⟩
            (if (Nat.toDigits 10 r.statusCode).take 1 = ['2'] then none
             else some ("http status code of " ++ String.mk (Nat.toDigits 10 r.statusCode))))
    ∧ (∀ (d : Decoder) (m u : String) (pce : PCE) (body : String) (uu : URL)
        (r : HTTPResponse) (rest : List HTTPResponse),
        validMethod m = true → urlParse u = some uu →
        apicall d m u pce body false (r :: rest) =
          (processResp r, [Event.request (goToUpper m) u pce.DisableTLSChecking])) := by
  constructor
  · intro r
    unfold processResp
    by_cases h : (Nat.toDigits 10 r.statusCode).take 1 = ['2']
    · simp [h]
    · simp [h]
  · intro d m u pce body uu r rest hv hu
    simp only [validMethod] at hv
    simp [apicall, hv, hu]

/-- Witness for claim C3: a synchronous 404 exchange keeps the body and
headers of the failing response next to the status-code error. -/
theorem claim3_witness :
    apicall sampleDecode "get" "https://pce.example.com/x" samplePCE "" false
        [⟨404, [("K", "v")], "error-payload"⟩] =
      (processResp ⟨404, [("K", "v")], "error-payload"⟩,
       [Event.request "GET" "https://pce.example.com/x" false]) :=
  claim3_status_check.2 sampleDecode "get" "https://pce.example.com/x" samplePCE ""
    ⟨"pce.example.com"⟩ ⟨404, [("K", "v")], "error-payload"⟩ [] (by decide) (by decide)

/-- Claim C5: a method whose upper-casing is not GET, POST, PUT or DELETE
makes the call fail with the invalid-action error and an empty event trace
(no network activity), and validation passes exactly when the upper-cased
method is in that set, hence in any letter case. -/
theorem claim5_method_validation (m : String) :
    (validMethod m = false →
      ∀ (d : Decoder) (u : String) (pce : PCE) (body : String) (async : Bool)
        (script : List HTTPResponse),
        apicall d m u pce body async script =
          (CallOutcome.returns zeroResponse (some invalidMethodMsg), []))
    ∧ (validMethod m = true ↔
        goToUpper m = "GET" ∨ goToUpper m = "POST" ∨ goToUpper m = "PUT" ∨
          goToUpper m = "DELETE") := by
  constructor
  · intro hv d u pce body async script
    simp only [validMethod] at hv
    simp [apicall, hv]
  · simp only [validMethod, validMethodUpper]
    cases h1 : goToUpper m == "GET" <;>
      cases h2 : goToUpper m == "POST" <;>
        cases h3 : goToUpper m == "PUT" <;>
          cases h4 : goToUpper m == "DELETE" <;>
            simp_all [bne]

/-- Witness for claim C5: the invalid-action equation applied at a concrete
invalid method, and validation passing for a mixed-case GET. -/
theorem claim5_witness :
    apicall sampleDecode "PaTcH" "https://pce.example.com/x" samplePCE "" false [] =
      (CallOutcome.returns zeroResponse (some invalidMethodMsg), []) ∧
    validMethod "gEt" = true :=
  ⟨(claim5_method_validation "PaTcH").1 (by decide) sampleDecode
      "https://pce.example.com/x" samplePCE "" false [],
   (claim5_method_validation "gEt").2.mpr (Or.inl (by decide))⟩

/-- Claim C10: with a valid method, every call first parses the caller URL
to build the async base URL without checking the parse error, so every URL
string the parser rejects crashes the call (a nil dereference, before any
network activity), synchronous or asynchronous alike. -/
theorem claim10_parse_panic :
    ∀ (d : Decoder) (m u : String) (pce : PCE) (body : String) (async : Bool)
      (script : List HTTPResponse),
      validMethod m = true → urlParse u = none →
      apicall d m u pce body async script = (CallOutcome.panics, []) := by
  intro d m u pce body async script hv hu
  simp only [validMethod] at hv
  simp [apicall, hv, hu]

/-- Witness for claim C10: a lone colon is rejected by the URL parser
(missing protocol scheme) and crashes a call with a valid method. -/
theorem claim10_witness :
    apicall sampleDecode "GET" ":" samplePCE "" true sampleScript =
      (CallOutcome.panics, []) :=
  claim10_parse_panic sampleDecode "GET" ":" samplePCE "" true sampleScript
    (by decide) (by decide)

/-- Claim C4, counterexample: a call with an invalid method returns a
non-nil error whose accompanying Response is the zero value (empty body,
status 0, no headers) and whose trace shows no HTTP exchange at all, so the
Response is not populated from any HTTP exchange. -/
theorem claim4_cex :
    apicall sampleDecode "PATCH" "https://pce.example.com/x" samplePCE "" false
        [⟨200, [], "ok"⟩] =
      (CallOutcome.returns ⟨"", 0, []⟩ (some invalidMethodMsg), []) := by
  decide

/-- Claim C4, amended: the Response accompanying a non-nil error is fully
populated from the final HTTP exchange only when the call reaches response
processing, that is on the status-code error; calls failing earlier return
the zero-valued Response: on an invalid method (with no network activity)
and on a network failure of the initial request. -/
theorem claim4_amended :
    (∀ (d : Decoder) (m u : String) (pce : PCE) (body : String) (uu : URL)
        (r : HTTPResponse) (rest : List HTTPResponse),
        validMethod m = true → urlParse u = some uu →
        (Nat.toDigits 10 r.statusCode).take 1 ≠ ['2'] →
        apicall d m u pce body false (r :: rest) =
          (CallOutcome.returns ⟨r.body, r.statusCode, r.headers⟩
             (some ("http status code of " ++ String.mk (Nat.toDigits 10 r.statusCode))),
           [Event.request (goToUpper m) u pce.DisableTLSChecking]))
    ∧ (∀ (d : Decoder) (m u : String) (pce : PCE) (body : String) (async : Bool)
        (script : List HTTPResponse),
        validMethod m = false →
        apicall d m u pce body async script =
          (CallOutcome.returns zeroResponse (some invalidMethodMsg), []))
    ∧ (∀ (d : Decoder) (m u : String) (pce : PCE) (body : String) (async : Bool)
        (uu : URL),
        validMethod m = true → urlParse u = some uu →
        apicall d m u pce body async [] =
          (CallOutcome.returns zeroResponse (some netErrMsg),
           [Event.request (goToUpper m) u pce.DisableTLSChecking])) := by
  refine ⟨?_, ?_, ?_⟩
  · intro d m u pce body uu r rest hv hu hs
    simp only [validMethod] at hv
    simp [apicall, hv, hu, processResp, hs]
  · intro d m u pce body async script hv
    simp only [validMethod] at hv
    simp [apicall, hv]
  · intro d m u pce body async uu hv hu
    simp only [validMethod] at hv
    simp [apicall, hv, hu]

/-- Witness for claim C4: the populated status-code-error case at a
concrete 404 exchange. -/
theorem claim4_witness :
    apicall sampleDecode "GET" "https://pce.example.com/x" samplePCE "" false
        [⟨404, [], "detail"⟩] =
      (CallOutcome.returns ⟨"detail", 404, []⟩
         (some ("http status code of " ++ String.mk (Nat.toDigits 10 404))),
       [Event.request "GET" "https://pce.example.com/x" false]) :=
  claim4_amended.1 sampleDecode "GET" "https://pce.example.com/x" samplePCE ""
    ⟨"pce.example.com"⟩ ⟨404, [], "detail"⟩ [] (by decide) (by decide) (by decide)

/-- When the Retry-After header of the driving response is absent or not
numeric, the whole polling loop fails at its first cycle with the Atoi
error, leaving the script untouched and emitting no event. -/
theorem pollLoop_no_retry (d : Decoder) (b : String) (pce : PCE) (o : HTTPResponse)
    (script : List HTTPResponse) {u2 : URL}
    (hu : urlParse (b ++ headerGet o.headers "Location") = some u2)
    (hw : goAtoi (headerGet o.headers "Retry-After") = none) :
    pollLoop d b pce o script = (Except.error atoiErrMsg, script, []) := by
  cases script with
  | nil =>
    show pollingM d b pce o [] = _
    exact pollingM_no_retry [] hu hw
  | cons r rest =>
    simp [pollLoop, pollingM_no_retry (r :: rest) hu hw]

/-- Claim C1, counterexample: an async run whose first poll response omits
Retry-After entirely. The claim predicts a MissingRetryAfter failure after
that poll; the code instead completes the whole protocol with a nil error,
and both cycles sleep the one second named by the initial submission
response, because the loop hands the initial response to every cycle and
never reads the poll responses' headers. -/
theorem claim1_cex :
    apicall sampleDecode "GET" "https://pce.example.com/api/v1/flows" samplePCE "" true
        noRetryScript =
      (CallOutcome.returns ⟨"ok", 200, []⟩ none,
       [Event.request "GET" "https://pce.example.com/api/v1/flows" false,
        Event.sleep 1,
        Event.request "GET" "https://pce.example.com/api/v1/jobs/123" true,
        Event.sleep 1,
        Event.request "GET" "https://pce.example.com/api/v1/jobs/123" true,
        Event.request "GET" "https://pce.example.com/api/v1/results/123" false]) := by
  decide

/-- Claim C1, amended: every poll cycle sleeps the number of seconds named
by the Retry-After header of the initial submission response before issuing
the job-status GET; an async call whose initial submission response carries
an absent or non-numeric Retry-After fails with the Atoi error before any
poll network activity; and every sleep of the whole loop takes its duration
from that same initial response (poll responses are never consulted). -/
theorem claim1_amended :
    (∀ (d : Decoder) (b : String) (pce : PCE) (o : HTTPResponse)
        (script : List HTTPResponse) (w : Int) (u2 : URL),
        urlParse (b ++ headerGet o.headers "Location") = some u2 →
        goAtoi (headerGet o.headers "Retry-After") = some w →
        (pollingM d b pce o script).2.2 =
          [Event.sleep w, Event.request "GET" (b ++ headerGet o.headers "Location") true])
    ∧ (∀ (d : Decoder) (m u : String) (pce : PCE) (body : String) (uu u2 : URL)
        (r : HTTPResponse) (rest : List HTTPResponse),
        validMethod m = true → urlParse u = some uu →
        urlParse ("https://" ++ uu.Host ++ "/api/v1" ++ headerGet r.headers "Location") =
          some u2 →
        goAtoi (headerGet r.headers "Retry-After") = none →
        apicall d m u pce body true (r :: rest) =
          (CallOutcome.returns zeroResponse (some atoiErrMsg),
           [Event.request (goToUpper m) u pce.DisableTLSChecking]))
    ∧ (∀ (d : Decoder) (b : String) (pce : PCE) (o : HTTPResponse) (w : Int),
        goAtoi (headerGet o.headers "Retry-After") = some w →
        ∀ (script : List HTTPResponse) (v : Int),
          Event.sleep v ∈ (pollLoop d b pce o script).2.2 → v = w) := by
  refine ⟨?_, ?_, ?_⟩
  · intro d b pce o script w u2 hu hw
    exact pollingM_events script hu hw
  · intro d m u pce body uu u2 r rest hv hu hu2 hw
    have hloop :=
      pollLoop_no_retry d ("https://" ++ uu.Host ++ "/api/v1") pce r rest hu2 hw
    simp only [validMethod] at hv
    simp [apicall, hv, hu, hloop]
  · intro d b pce o w hw script v hv
    rcases pollLoop_event_mem script hv with ⟨w2, hw2, heq⟩ | heq
    · have hww : w = w2 := Option.some.inj ((hw.symm.trans hw2))
      injection heq with h1
      omega
    · cases heq

/-- Witness for claim C1: the three parts applied at concrete inputs: a
cycle driven by a zero-second Retry-After, a call whose initial response
has no Retry-After header, and the sleeps of a concrete two-cycle loop. -/
theorem claim1_witness :
    (pollingM sampleDecode "https://pce.example.com/api/v1" samplePCE
        ⟨202, [("Location", "/jobs/123"), ("Retry-After", "0")], ""⟩ []).2.2 =
      [Event.sleep 0,
       Event.request "GET" "https://pce.example.com/api/v1/jobs/123" true] ∧
    apicall sampleDecode "GET" "https://pce.example.com/api/v1/flows" samplePCE "" true
        [⟨202, [("Location", "/jobs/123")], ""⟩] =
      (CallOutcome.returns zeroResponse (some atoiErrMsg),
       [Event.request "GET" "https://pce.example.com/api/v1/flows" false]) ∧
    (0 : Int) = 0 :=
  ⟨claim1_amended.1 sampleDecode "https://pce.example.com/api/v1" samplePCE
      ⟨202, [("Location", "/jobs/123"), ("Retry-After", "0")], ""⟩ [] 0
      ⟨"pce.example.com"⟩ (by decide) (by decide),
   claim1_amended.2.1 sampleDecode "GET" "https://pce.example.com/api/v1/flows"
      samplePCE "" ⟨"pce.example.com"⟩ ⟨"pce.example.com"⟩
      ⟨202, [("Location", "/jobs/123")], ""⟩ [] (by decide) (by decide) (by decide)
      (by decide),
   claim1_amended.2.2 sampleDecode "https://pce.example.com/api/v1" samplePCE
      ⟨202, [("Location", "/jobs/123"), ("Retry-After", "0")], ""⟩ 0 (by decide)
      [⟨200, [], "pending-body"⟩, ⟨200, [], "done-body"⟩] 0 (by decide)⟩

/-- Claim C2: the end-to-end async run: submission acknowledged with the
job location and a zero retry delay, a pending poll, a done poll naming the
result href, and a result fetch answering 200 with body ok. The call
returns status 200, body ok and a nil error, and the trace shows exactly
one submission request, two poll requests and one result fetch. -/
theorem claim2_async_flow :
    apicall sampleDecode "GET" "https://pce.example.com/api/v1/flows" samplePCE "" true
        sampleScript =
      (CallOutcome.returns ⟨"ok", 200, []⟩ none,
       [Event.request "GET" "https://pce.example.com/api/v1/flows" false,
        Event.sleep 0,
        Event.request "GET" "https://pce.example.com/api/v1/jobs/123" true,
        Event.sleep 0,
        Event.request "GET" "https://pce.example.com/api/v1/jobs/123" true,
        Event.request "GET" "https://pce.example.com/api/v1/results/123" false]) := by
  decide

/-- Claim C6: a poll whose body the decoder rejects aborts nothing: the
cycle returns a nil error with the job record left at its zero value (in
particular an empty status), and the loop goes on to run another cycle,
its events extending the failed cycle's events. -/
theorem claim6_decode_nonfatal :
    ∀ (d : Decoder) (b : String) (pce : PCE) (o r : HTTPResponse)
      (rest : List HTTPResponse) (w : Int) (u2 : URL),
      urlParse (b ++ headerGet o.headers "Location") = some u2 →
      goAtoi (headerGet o.headers "Retry-After") = some w →
      d r.body = none →
      pollingM d b pce o (r :: rest) =
        (Except.ok zeroAsync, rest,
         [Event.sleep w, Event.request "GET" (b ++ headerGet o.headers "Location") true])
      ∧ zeroAsync.Status = ""
      ∧ pollLoop d b pce o (r :: rest) =
          ((pollLoop d b pce o rest).1, (pollLoop d b pce o rest).2.1,
           [Event.sleep w, Event.request "GET" (b ++ headerGet o.headers "Location") true]
             ++ (pollLoop d b pce o rest).2.2) := by
  intro d b pce o r rest w u2 hu hw hd
  refine ⟨by simp [pollingM, hu, hw, hd], rfl, ?_⟩
  rcases hp : pollLoop d b pce o rest with ⟨res, s2, ev2⟩
  simp [pollLoop, pollingM, hu, hw, hd, hp, zeroAsync]

/-- Witness for claim C6: a concrete undecodable poll body followed by an
empty script. -/
theorem claim6_witness :
    pollingM sampleDecode "https://pce.example.com/api/v1" samplePCE
        ⟨202, [("Location", "/jobs/123"), ("Retry-After", "0")], ""⟩
        [⟨200, [], "junk"⟩] =
      (Except.ok zeroAsync, [],
       [Event.sleep 0,
        Event.request "GET" "https://pce.example.com/api/v1/jobs/123" true]) :=
  (claim6_decode_nonfatal sampleDecode "https://pce.example.com/api/v1" samplePCE
    ⟨202, [("Location", "/jobs/123"), ("Retry-After", "0")], ""⟩ ⟨200, [], "junk"⟩
    [] 0 ⟨"pce.example.com"⟩ (by decide) (by decide) (by decide)).1

/-- Claim C7: every job-status poll request is issued on a client that
skips TLS certificate verification unconditionally, while the initial
submission request and the final result fetch are issued on the client
whose TLS-skip mode equals the DisableTLSChecking flag of the endpoint
(strict by default). -/
theorem claim7_tls_asymmetry :
    (∀ (d : Decoder) (b : String) (pce : PCE) (o : HTTPResponse)
        (script : List HTTPResponse) (m u : String) (tls : Bool),
        Event.request m u tls ∈ (pollLoop d b pce o script).2.2 → tls = true)
    ∧ (∀ (d : Decoder) (m u : String) (pce : PCE) (body : String) (async : Bool)
        (script : List HTTPResponse) (uu : URL),
        validMethod m = true → urlParse u = some uu →
        (apicall d m u pce body async script).2.head? =
          some (Event.request (goToUpper m) u pce.DisableTLSChecking))
    ∧ (∀ (d : Decoder) (m u : String) (pce : PCE) (body : String) (uu u2 : URL)
        (r : HTTPResponse) (rest rest2 : List HTTPResponse) (a : AsyncResults)
        (pev : List Event),
        validMethod m = true → urlParse u = some uu →
        pollLoop d ("https://" ++ uu.Host ++ "/api/v1") pce r rest =
          (Except.ok a, rest2, pev) →
        urlParse ("https://" ++ uu.Host ++ "/api/v1" ++ a.ResultHref) = some u2 →
        (apicall d m u pce body true (r :: rest)).2 =
          Event.request (goToUpper m) u pce.DisableTLSChecking ::
            (pev ++
             [Event.request "GET" ("https://" ++ uu.Host ++ "/api/v1" ++ a.ResultHref)
                pce.DisableTLSChecking])) := by
  refine ⟨?_, ?_, ?_⟩
  · intro d b pce o script m u tls hmem
    rcases pollLoop_event_mem script hmem with ⟨w, hw, heq⟩ | heq
    · cases heq
    · injection heq with h1 h2 h3
  · intro d m u pce body async script uu hv hu
    simp only [validMethod] at hv
    cases script with
    | nil => simp [apicall, hv, hu]
    | cons r rest =>
      cases async with
      | false => simp [apicall, hv, hu]
      | true =>
        rcases hp : pollLoop d ("https://" ++ uu.Host ++ "/api/v1") pce r rest
          with ⟨res, s2, ev⟩
        cases res with
        | error e => simp [apicall, hv, hu, hp]
        | ok a =>
          cases hu2 : urlParse ("https://" ++ uu.Host ++ "/api/v1" ++ a.ResultHref) with
          | none => simp [apicall, hv, hu, hp, hu2]
          | some u2 => cases s2 <;> simp [apicall, hv, hu, hp, hu2]
  · intro d m u pce body uu u2 r rest rest2 a pev hv hu hp hu2
    simp only [validMethod] at hv
    cases rest2 with
    | nil => simp [apicall, hv, hu, hp, hu2]
    | cons fr frest => simp [apicall, hv, hu, hp, hu2]

/-- Witness for claim C7: the three parts applied at the concrete
end-to-end run: a poll request of that run, the head of its trace, and its
full trace decomposition around the polling events. -/
theorem claim7_witness :
    (true : Bool) = true ∧
    (apicall sampleDecode "GET" "https://pce.example.com/api/v1/flows" samplePCE "" true
        sampleScript).2.head? =
      some (Event.request "GET" "https://pce.example.com/api/v1/flows" false) ∧
    (apicall sampleDecode "GET" "https://pce.example.com/api/v1/flows" samplePCE "" true
        sampleScript).2 =
      Event.request "GET" "https://pce.example.com/api/v1/flows" false ::
        ([Event.sleep 0,
          Event.request "GET" "https://pce.example.com/api/v1/jobs/123" true,
          Event.sleep 0,
          Event.request "GET" "https://pce.example.com/api/v1/jobs/123" true] ++
         [Event.request "GET" "https://pce.example.com/api/v1/results/123" false]) :=
  ⟨claim7_tls_asymmetry.1 sampleDecode "https://pce.example.com/api/v1" samplePCE
      ⟨202, [("Location", "/jobs/123"), ("Retry-After", "0")], ""⟩
      [⟨200, [], "pending-body"⟩] "GET" "https://pce.example.com/api/v1/jobs/123" true
      (by decide),
   claim7_tls_asymmetry.2.1 sampleDecode "GET" "https://pce.example.com/api/v1/flows"
      samplePCE "" true sampleScript ⟨"pce.example.com"⟩ (by decide) (by decide),
   claim7_tls_asymmetry.2.2 sampleDecode "GET" "https://pce.example.com/api/v1/flows"
      samplePCE "" ⟨"pce.example.com"⟩ ⟨"pce.example.com"⟩
      ⟨202, [("Location", "/jobs/123"), ("Retry-After", "0")], ""⟩
      [⟨200, [], "pending-body"⟩, ⟨200, [], "done-body"⟩, ⟨200, [], "ok"⟩]
      [⟨200, [], "ok"⟩]
      { zeroAsync with Status := "done", ResultHref := "/results/123" }
      [Event.sleep 0,
       Event.request "GET" "https://pce.example.com/api/v1/jobs/123" true,
       Event.sleep 0,
       Event.request "GET" "https://pce.example.com/api/v1/jobs/123" true]
      (by decide) (by decide) (by rfl) (by decide)⟩

end IllumioAPI
